import Mathlib

/-!
Verification of the `idle-timer` activity-state machine.

The source is a single class `IdleTimer` (src/unnamed/part_000) plus a small
utils module (`now`, `passive_supported`).  We embed the class as a state
structure together with an explicit model of the host scheduler (the pending
`setTimeout` callbacks) and of the DOM listener registry, and translate each
method as a pure function from state (and the current clock value) to state,
returning the list of observable side effects (custom-event dispatches and
localStorage writes).
-/

set_option autoImplicit false

namespace IdleTimerSpec

/-- A JavaScript value as it appears in the pointer-coordinate fields:
`null`, `undefined`, or a number.  JS strict equality `===` on these values
is exactly decidable equality of this type. -/
inductive JVal where
  | null : JVal
  | undef : JVal
  | num : Int → JVal
deriving DecidableEq

/-- An incoming DOM event, restricted to the fields the handler reads:
`type`, `key` (for 'storage' events; `none` models null/undefined) and the
pointer coordinates `pageX`/`pageY` (undefined on non-mouse events). -/
structure JEvent where
  type : String
  key : Option String
  pageX : JVal
  pageY : JVal
deriving DecidableEq

/-- Observable side effects of the timer's code paths:
`dispatch name orig` is `element.dispatchEvent(new CustomEvent(name, {detail:
{timer: ..., event: orig}}))`; `storageWrite k v` is
`localStorage.setItem(k, v)`. -/
inductive Effect where
  | dispatch (name : String) (orig : Option JEvent)
  | storageWrite (key : String) (value : Int)
deriving DecidableEq

/-- The `IdleTimer` instance state.  Fields up to `pageY` are the member
variables of the class (with `timeout_id` the cached `setTimeout` handle,
`none` for null).  `pending` and `next_handle` model the host scheduler:
`pending` is the list of scheduled-but-not-yet-fired `setTimeout` callbacks
(handle, absolute fire time) registered by this timer, and `next_handle` is
the next handle the host will allocate (handles start at 1, so a handle is
always truthy, matching `if (this.timeout_id)`). -/
structure IdleTimer where
  initially_idle : Bool
  timeout : Int
  events : List String
  storage_key : Option String
  idle : Bool
  last_toggled_at : Int
  last_activity_at : Int
  remaining : Option Int
  pageX : JVal
  pageY : JVal
  timeout_id : Option Nat
  pending : List (Nat × Int)
  next_handle : Nat
deriving DecidableEq

/-- The default monitored event kinds of the constructor. -/
def default_events : List String :=
  ["mousemove", "keydown", "wheel", "DOMMouseScroll", "mousewheel", "mousedown"]

/-- `is_idle()`. -/
def is_idle (s : IdleTimer) : Bool := s.idle

/-- `__is_paused()`: `null != this.remaining`. -/
def is_paused (s : IdleTimer) : Bool := s.remaining.isSome

/-- `get_elapsed_time()`: `Utils.now() - this.last_toggled_at`, with the
current clock value `t` passed explicitly. -/
def get_elapsed_time (s : IdleTimer) (t : Int) : Int := t - s.last_toggled_at

/-- `get_last_active_time()`. -/
def get_last_active_time (s : IdleTimer) : Int := s.last_activity_at

/-- `__toggle_idle(event)`: flips `idle`, records `last_toggled_at = now()`,
and dispatches `idle-timer:idle` or `idle-timer:active` (named after the NEW
state) carrying the originating event (null for the deferred elapse). -/
def toggle_idle (s : IdleTimer) (t : Int) (event : Option JEvent) :
    IdleTimer × List Effect :=
  let s := { s with idle := !s.idle, last_toggled_at := t }
  let event_name := "idle-timer:" ++ (if is_idle s then "idle" else "active")
  (s, [Effect.dispatch event_name event])

/-- `__clear()`: if `timeout_id` is truthy, `clearTimeout` it (remove that
handle from the host's pending list; a no-op if it already fired) and null
the member. -/
def clear (s : IdleTimer) : IdleTimer :=
  match s.timeout_id with
  | some h =>
      { s with pending := s.pending.filter (fun p => p.1 ≠ h), timeout_id := none }
  | none => s

/-- `__start(duration = null)`: `setTimeout(() => this.__toggle_idle(null),
duration ?? this.timeout)`, storing the returned handle in `timeout_id`. -/
def start (s : IdleTimer) (t : Int) (duration : Option Int) : IdleTimer :=
  let d := duration.getD s.timeout
  { s with timeout_id := some s.next_handle,
           pending := s.pending ++ [(s.next_handle, t + d)],
           next_handle := s.next_handle + 1 }

/-- The early-return guard of `__handle_event`: the event is dropped when the
timer is paused, when it is a 'storage' event whose key differs from
`storage_key`, or when it is a 'mousemove' rejected by the debounce filter
(coordinates strictly equal to the cached ones, both coordinates undefined,
or elapsed time since the last toggle under 200 ms). -/
def spurious (s : IdleTimer) (t : Int) (e : JEvent) : Bool :=
  is_paused s ||
  (e.type == "storage" && e.key != s.storage_key) ||
  (e.type == "mousemove" &&
    ((e.pageX == s.pageX && e.pageY == s.pageY) ||
     (e.pageX == JVal.undef && e.pageY == JVal.undef) ||
     decide (get_elapsed_time s t < 200)))

/-- `__handle_event(event)`: if not dropped by the guard, clears the pending
timeout, toggles to active (dispatching) when currently idle, records
`last_activity_at = now()` and the event's coordinates, writes
`last_activity_at` to localStorage when the event is not itself a 'storage'
event and `storage_key` is set (silently skipped when localStorage is
absent, modelled by `hasLocalStorage`), and starts a fresh full timeout. -/
def handle_event (s : IdleTimer) (t : Int) (e : JEvent)
    (hasLocalStorage : Bool) : IdleTimer × List Effect :=
  if spurious s t e then (s, [])
  else
    let s := clear s
    let (s, evs1) :=
      if is_idle s then toggle_idle s t (some e) else (s, [])
    let s := { s with last_activity_at := t, pageX := e.pageX, pageY := e.pageY }
    let evs2 :=
      match s.storage_key with
      | some k =>
          if e.type ≠ "storage" ∧ hasLocalStorage then
            [Effect.storageWrite k (get_last_active_time s)]
          else []
      | none => []
    let s := start s t none
    (s, evs1 ++ evs2)

/-- The `setTimeout` callback `() => this.__toggle_idle(null)` firing: the
host removes the entry from its pending list (the member `timeout_id` keeps
the stale handle, as in the source) and runs `__toggle_idle(null)`. -/
def fire_timeout (s : IdleTimer) (h : Nat) (t : Int) : IdleTimer × List Effect :=
  let s := { s with pending := s.pending.erase (h, t) }
  toggle_idle s t none

/-- `reset()`: assigns `idle = initially_idle`, sets both timestamps to
`now()`, clears the cached `remaining`, clears any pending timeout and, if
the resulting state is not idle, starts a fresh full timeout.  No event is
dispatched on this path. -/
def reset (s : IdleTimer) (t : Int) : IdleTimer :=
  let s := { s with idle := s.initially_idle,
                    last_activity_at := t, last_toggled_at := t,
                    remaining := none }
  let s := clear s
  if ¬ is_idle s then start s t none else s

/-- `pause()`: if not already paused, caches
`remaining = timeout - get_elapsed_time()` and clears the pending timeout;
otherwise a no-op. -/
def pause (s : IdleTimer) (t : Int) : IdleTimer :=
  if ¬ is_paused s then
    clear { s with remaining := some (s.timeout - get_elapsed_time s t) }
  else s

/-- `resume()`: if paused, starts a timeout with the cached `remaining` as
duration when not idle, then clears `remaining`; otherwise a no-op. -/
def resume (s : IdleTimer) (t : Int) : IdleTimer :=
  if is_paused s then
    let s := if ¬ is_idle s then start s t s.remaining else s
    { s with remaining := none }
  else s

/-- `get_remaining_time()`: 0 when idle; the cached `remaining` when paused;
otherwise `max(0, timeout - (now() - get_last_active_time()))`. -/
def get_remaining_time (s : IdleTimer) (t : Int) : Int :=
  if is_idle s then 0
  else
    match s.remaining with
    | some r => r
    | none => max 0 (s.timeout - (t - get_last_active_time s))

/-- `destroy()` as it acts on the timer/scheduler state: `__clear()` (the
listener-registry half, `__uninstall_handlers`, is modelled on `Dom`
below). -/
def destroy (s : IdleTimer) : IdleTimer := clear s

/-- The constructor's effect on the timer state: member initialisation
followed by `reset()` (handler installation is modelled on `Dom` below).
Fields assigned only by `reset` are given placeholder initial values, all
overwritten by the `reset` call. -/
def construct (initially_idle : Bool) (timeout : Int) (events : List String)
    (storage_key : Option String) (t : Int) : IdleTimer :=
  reset
    { initially_idle := initially_idle, timeout := timeout, events := events,
      storage_key := storage_key, idle := false, last_toggled_at := 0,
      last_activity_at := 0, remaining := none, pageX := JVal.null,
      pageY := JVal.null, timeout_id := none, pending := [], next_handle := 1 }
    t

/-- The DOM listener registry for the timer's element (plus `window`, which
only ever carries the 'storage' subscription; we keep one flat registry —
kinds are distinct so this loses nothing).  A listener is identified by the
identity of the handler function object; each evaluation of
`const handler = (e) => { this.__handle_event(e) }` allocates a fresh
identity, modelled by the counter `next_fn`.  `probe_calls` counts the
invocations of `Utils.passive_supported()`. -/
structure Dom where
  listeners : List (String × Nat)
  next_fn : Nat
  probe_calls : Nat
deriving DecidableEq

/-- `addEventListener(kind, f, opts)`: per the host contract, registering an
already-registered (kind, listener) pair is a no-op. -/
def addListener (d : Dom) (kind : String) (f : Nat) : Dom :=
  if (kind, f) ∈ d.listeners then d
  else { d with listeners := d.listeners ++ [(kind, f)] }

/-- `removeEventListener(kind, f)`: removes the (kind, listener) pair when
registered; a no-op (per the host contract) when that exact pair is not. -/
def removeListener (d : Dom) (kind : String) (f : Nat) : Dom :=
  { d with listeners := d.listeners.filter (fun p => p ≠ (kind, f)) }

/-- `__install_handlers()`: allocates one fresh handler closure; then, for
each monitored event kind, evaluates `Utils.passive_supported()` (the call
sits inside the `forEach` callback, so it runs once per kind) and subscribes
the handler; finally, when `storage_key` is set, subscribes the same handler
to 'storage' on window.  Returns the registry and the handler's identity. -/
def install_handlers (d : Dom) (events : List String)
    (storage_key : Option String) : Dom × Nat :=
  let f := d.next_fn
  let d := { d with next_fn := d.next_fn + 1 }
  let d := events.foldl
    (fun d item =>
      let d := { d with probe_calls := d.probe_calls + 1 }
      addListener d item f)
    d
  let d :=
    match storage_key with
    | some _ => addListener d "storage" f
    | none => d
  (d, f)

/-- `__uninstall_handlers()`: evaluates `const handler = (e) => ...` AGAIN,
allocating a fresh closure distinct from the one `__install_handlers`
registered, and calls `removeEventListener` with it for each monitored kind
(and 'storage' when `storage_key` is set).  Returns the registry and the
identity of the closure it used. -/
def uninstall_handlers (d : Dom) (events : List String)
    (storage_key : Option String) : Dom × Nat :=
  let f := d.next_fn
  let d := { d with next_fn := d.next_fn + 1 }
  let d := events.foldl (fun d item => removeListener d item f) d
  let d :=
    match storage_key with
    | some _ => removeListener d "storage" f
    | none => d
  (d, f)

/-- A fresh page: no listeners, no probe calls yet. -/
def dom0 : Dom := { listeners := [], next_fn := 0, probe_calls := 0 }

/-- One transition of the whole system: an incoming event dispatched to the
handler, a scheduled timeout callback firing, or one of the public method
calls.  The clock value is chosen freely at each step (the claims settled on
this relation do not depend on clock monotonicity). -/
inductive Step : IdleTimer → IdleTimer → Prop where
  | handle : ∀ (s : IdleTimer) (t : Int) (e : JEvent) (b : Bool),
      Step s (handle_event s t e b).1
  | fire : ∀ (s : IdleTimer) (h : Nat) (t : Int),
      (h, t) ∈ s.pending → Step s (fire_timeout s h t).1
  | pauseStep : ∀ (s : IdleTimer) (t : Int), Step s (pause s t)
  | resumeStep : ∀ (s : IdleTimer) (t : Int), Step s (resume s t)
  | resetStep : ∀ (s : IdleTimer) (t : Int), Step s (reset s t)
  | destroyStep : ∀ (s : IdleTimer), Step s (destroy s)

/-- Reachability from a given state by any interleaving of steps. -/
def Reachable (s s' : IdleTimer) : Prop := Relation.ReflTransGen Step s s'

/-- The scheduler invariant: at most one timeout is pending; any pending
timeout's handle is the one cached in `timeout_id` (so `__clear` really
cancels it); and while paused no timeout is pending. -/
def Inv (s : IdleTimer) : Prop :=
  s.pending.length ≤ 1 ∧
  (∀ p ∈ s.pending, s.timeout_id = some p.1) ∧
  (s.remaining ≠ none → s.pending = [])

instance (s : IdleTimer) : Decidable (Inv s) := by
  unfold Inv; infer_instance

@[simp] theorem toggle_idle_pending (s : IdleTimer) (t : Int) (ev : Option JEvent) :
    (toggle_idle s t ev).1.pending = s.pending := rfl

@[simp] theorem toggle_idle_timeout_id (s : IdleTimer) (t : Int) (ev : Option JEvent) :
    (toggle_idle s t ev).1.timeout_id = s.timeout_id := rfl

@[simp] theorem toggle_idle_remaining (s : IdleTimer) (t : Int) (ev : Option JEvent) :
    (toggle_idle s t ev).1.remaining = s.remaining := rfl

@[simp] theorem toggle_idle_next_handle (s : IdleTimer) (t : Int) (ev : Option JEvent) :
    (toggle_idle s t ev).1.next_handle = s.next_handle := rfl

@[simp] theorem toggle_idle_idle (s : IdleTimer) (t : Int) (ev : Option JEvent) :
    (toggle_idle s t ev).1.idle = !s.idle := rfl

@[simp] theorem clear_remaining (s : IdleTimer) : (clear s).remaining = s.remaining := by
  unfold clear; cases s.timeout_id <;> rfl

@[simp] theorem clear_idle (s : IdleTimer) : (clear s).idle = s.idle := by
  unfold clear; cases s.timeout_id <;> rfl

@[simp] theorem clear_next_handle (s : IdleTimer) : (clear s).next_handle = s.next_handle := by
  unfold clear; cases s.timeout_id <;> rfl

@[simp] theorem clear_timeout (s : IdleTimer) : (clear s).timeout = s.timeout := by
  unfold clear; cases s.timeout_id <;> rfl

@[simp] theorem clear_initially_idle (s : IdleTimer) :
    (clear s).initially_idle = s.initially_idle := by
  unfold clear; cases s.timeout_id <;> rfl

@[simp] theorem clear_storage_key (s : IdleTimer) :
    (clear s).storage_key = s.storage_key := by
  unfold clear; cases s.timeout_id <;> rfl

@[simp] theorem clear_last_toggled_at (s : IdleTimer) :
    (clear s).last_toggled_at = s.last_toggled_at := by
  unfold clear; cases s.timeout_id <;> rfl

@[simp] theorem clear_last_activity_at (s : IdleTimer) :
    (clear s).last_activity_at = s.last_activity_at := by
  unfold clear; cases s.timeout_id <;> rfl

@[simp] theorem start_pending (s : IdleTimer) (t : Int) (d : Option Int) :
    (start s t d).pending = s.pending ++ [(s.next_handle, t + d.getD s.timeout)] := rfl

@[simp] theorem start_timeout_id (s : IdleTimer) (t : Int) (d : Option Int) :
    (start s t d).timeout_id = some s.next_handle := rfl

@[simp] theorem start_remaining (s : IdleTimer) (t : Int) (d : Option Int) :
    (start s t d).remaining = s.remaining := rfl

@[simp] theorem start_idle (s : IdleTimer) (t : Int) (d : Option Int) :
    (start s t d).idle = s.idle := rfl

@[simp] theorem start_last_toggled_at (s : IdleTimer) (t : Int) (d : Option Int) :
    (start s t d).last_toggled_at = s.last_toggled_at := rfl

@[simp] theorem start_next_handle (s : IdleTimer) (t : Int) (d : Option Int) :
    (start s t d).next_handle = s.next_handle + 1 := rfl

@[simp] theorem start_last_activity_at (s : IdleTimer) (t : Int) (d : Option Int) :
    (start s t d).last_activity_at = s.last_activity_at := rfl

@[simp] theorem start_initially_idle (s : IdleTimer) (t : Int) (d : Option Int) :
    (start s t d).initially_idle = s.initially_idle := rfl

@[simp] theorem start_storage_key (s : IdleTimer) (t : Int) (d : Option Int) :
    (start s t d).storage_key = s.storage_key := rfl

theorem clear_pending (s : IdleTimer)
    (h2 : ∀ p ∈ s.pending, s.timeout_id = some p.1) :
    (clear s).pending = [] ∧ (clear s).timeout_id = none := by
  unfold clear
  match hp : s.pending, ht : s.timeout_id with
  | [], some h0 => simp [ht]
  | [], none => simp [ht, hp]
  | p :: l, some h0 =>
      refine ⟨?_, rfl⟩
      show List.filter (fun q => decide (q.1 ≠ h0)) (p :: l) = []
      rw [List.filter_eq_nil_iff]
      intro q hq
      have hq1 : q.1 = h0 := by
        have := h2 q (hp ▸ hq)
        rw [ht] at this
        exact (Option.some_inj.mp this).symm
      simp [hq1]
  | p :: l, none =>
      have := h2 p (hp ▸ List.mem_cons_self p l)
      rw [ht] at this
      exact absurd this (by simp)

theorem inv_of_pending_nil (s : IdleTimer) (hp : s.pending = []) : Inv s :=
  ⟨by simp [hp], by simp [hp], fun _ => hp⟩

theorem inv_start_of_nil (s : IdleTimer) (t : Int) (d : Option Int)
    (hp : s.pending = []) (hr : s.remaining = none) : Inv (start s t d) := by
  refine ⟨?_, ?_, ?_⟩ <;> simp [hp, hr]

theorem remaining_none_of_not_spurious (s : IdleTimer) (t : Int) (e : JEvent)
    (hs : ¬ spurious s t e = true) : s.remaining = none := by
  cases hr : s.remaining with
  | none => rfl
  | some r =>
      exact absurd (by simp [spurious, is_paused, hr]) hs

theorem inv_handle (s : IdleTimer) (t : Int) (e : JEvent) (b : Bool)
    (h : Inv s) : Inv (handle_event s t e b).1 := by
  by_cases hs : spurious s t e = true
  · simpa [handle_event, hs] using h
  · have hr : s.remaining = none := remaining_none_of_not_spurious s t e hs
    have hc := clear_pending s h.2.1
    simp only [handle_event, hs, if_false, Bool.false_eq_true]
    apply inv_start_of_nil
    · cases hi : is_idle (clear s) <;> simp [hi, hc.1]
    · cases hi : is_idle (clear s) <;> simp [hi, hr]

theorem inv_fire (s : IdleTimer) (h0 : Nat) (t : Int) (h : Inv s) :
    Inv (fire_timeout s h0 t).1 := by
  obtain ⟨h1, h2, h3⟩ := h
  refine ⟨?_, ?_, ?_⟩
  · show (s.pending.erase (h0, t)).length ≤ 1
    exact le_trans (s.pending.erase_sublist (h0, t)).length_le h1
  · intro p hp
    exact h2 p (List.mem_of_mem_erase hp)
  · intro hrem
    show s.pending.erase (h0, t) = []
    rw [h3 hrem]
    rfl

theorem inv_pause (s : IdleTimer) (t : Int) (h : Inv s) : Inv (pause s t) := by
  unfold pause
  by_cases hp : is_paused s = true
  · simpa [hp] using h
  · simp only [hp, Bool.false_eq_true, not_false_eq_true, if_true]
    apply inv_of_pending_nil
    exact (clear_pending
      { s with remaining := some (s.timeout - get_elapsed_time s t) } h.2.1).1

theorem inv_resume (s : IdleTimer) (t : Int) (h : Inv s) : Inv (resume s t) := by
  unfold resume
  by_cases hp : is_paused s = true
  · have hnil : s.pending = [] := by
      apply h.2.2
      unfold is_paused at hp
      cases hr : s.remaining with
      | none => rw [hr] at hp; simp at hp
      | some r => simp [hr]
    simp only [hp, if_true]
    by_cases hi : is_idle s = true
    · apply inv_of_pending_nil
      simpa [hi] using hnil
    · refine ⟨?_, ?_, ?_⟩ <;> simp [hi, hnil]
  · simpa [hp] using h

theorem inv_reset (s : IdleTimer) (t : Int) (h : Inv s) : Inv (reset s t) := by
  have key : ∀ s1 : IdleTimer, (∀ p ∈ s1.pending, s1.timeout_id = some p.1) →
      s1.remaining = none →
      Inv (if ¬ is_idle (clear s1) = true then start (clear s1) t none
           else clear s1) := by
    intro s1 h2 hrem
    have hc := clear_pending s1 h2
    by_cases hi : is_idle (clear s1) = true
    · rw [if_neg (by simp [hi])]
      exact inv_of_pending_nil _ hc.1
    · rw [if_pos (by simp [hi])]
      exact inv_start_of_nil _ _ _ hc.1 (by simp [hrem])
  exact key
    { s with idle := s.initially_idle, last_activity_at := t,
             last_toggled_at := t, remaining := none } h.2.1 rfl

theorem inv_destroy (s : IdleTimer) (h : Inv s) : Inv (destroy s) :=
  inv_of_pending_nil _ (clear_pending s h.2.1).1

theorem inv_construct (ii : Bool) (T : Int) (evs : List String)
    (sk : Option String) (t : Int) : Inv (construct ii T evs sk t) := by
  apply inv_reset
  exact inv_of_pending_nil _ rfl

theorem inv_reachable (s s' : IdleTimer) (h : Inv s) (hr : Reachable s s') :
    Inv s' := by
  induction hr with
  | refl => exact h
  | tail _ hstep ih =>
      cases hstep with
      | handle t e b => exact inv_handle _ t e b ih
      | fire h0 t hmem => exact inv_fire _ h0 t ih
      | pauseStep t => exact inv_pause _ t ih
      | resumeStep t => exact inv_resume _ t ih
      | resetStep t => exact inv_reset _ t ih
      | destroyStep => exact inv_destroy _ ih

/-! Shared concrete trace: a timer constructed active at t = 0 with a
1000 ms timeout, a keydown accepted at t = 900, and a pause at t = 1500. -/

/-- A keydown event (no pointer coordinates, no storage key). -/
def ev_keydown : JEvent :=
  { type := "keydown", key := none, pageX := JVal.undef, pageY := JVal.undef }

/-- A mousemove event at concrete coordinates (5, 5). -/
def ev_move : JEvent :=
  { type := "mousemove", key := none, pageX := JVal.num 5, pageY := JVal.num 5 }

/-- Timer constructed at t = 0: `new IdleTimer({timeout: 1000})`. -/
def s_active0 : IdleTimer := construct false 1000 default_events none 0

/-- The same timer after a keydown dispatched at t = 900. -/
def s_after_kd : IdleTimer := (handle_event s_active0 900 ev_keydown true).1

/-- The same timer after `pause()` called at t = 1500. -/
def s_paused_late : IdleTimer := pause s_after_kd 1500

theorem handle_event_next_handle (s : IdleTimer) (t : Int) (e : JEvent)
    (b : Bool) (hs : spurious s t e = false) :
    (handle_event s t e b).1.next_handle = s.next_handle + 1 := by
  simp only [handle_event, hs, Bool.false_eq_true, if_false]
  cases hi : is_idle (clear s) <;> simp [hi]

theorem resume_start (s : IdleTimer) (tr r : Int) (hr : s.remaining = some r)
    (hi : s.idle = false) :
    resume s tr = { start s tr (some r) with remaining := none } := by
  simp [resume, is_paused, is_idle, hr, hi]

/-! The claim theorems. -/

/-- C6: while paused (`remaining` non-null), every incoming signal delivered
to the dispatcher — of any event kind, 'storage' included — is ignored
entirely: the state is unchanged and no effect (dispatch, storage write,
scheduling or cancellation) is produced. -/
theorem C6_paused_ignores_all (s : IdleTimer) (t : Int) (e : JEvent)
    (b : Bool) (r : Int) (h : s.remaining = some r) :
    handle_event s t e b = (s, []) := by
  have hs : spurious s t e = true := by simp [spurious, is_paused, h]
  simp [handle_event, hs]

theorem C6_witness :
    handle_event s_paused_late 1600 ev_keydown true = (s_paused_late, []) :=
  C6_paused_ignores_all s_paused_late 1600 ev_keydown true (-500) (by decide)

/-- C10: the remaining-time query is not clamped while paused.  Concretely:
with `timeout = 1000`, constructed active at t = 0, a keydown accepted at
t = 900 postpones the idle deadline to 1900 without touching
`last_toggled_at`; pausing at t = 1500 caches
`remaining = 1000 - (1500 - 0) = -500`, a reachable state in which
`get_remaining_time` returns the negative cached value. -/
theorem C10_negative_remaining_while_paused :
    Reachable s_active0 s_paused_late ∧
    s_paused_late.idle = false ∧
    s_paused_late.remaining = some (-500) ∧
    get_remaining_time s_paused_late 1600 = -500 ∧
    get_remaining_time s_paused_late 1600 < 0 := by
  refine ⟨?_, by decide, by decide, by decide, by decide⟩
  exact Relation.ReflTransGen.tail
    (Relation.ReflTransGen.tail Relation.ReflTransGen.refl
      (Step.handle s_active0 900 ev_keydown true))
    (Step.pauseStep s_after_kd 1500)

/-- C4: in every state reachable from construction by any sequence of
dispatched events, timeout firings, and pause/resume/reset/destroy calls,
at most one deferred transition is pending. -/
theorem C4_at_most_one_pending (ii : Bool) (T t0 : Int) (evs : List String)
    (sk : Option String) (y : IdleTimer)
    (hr : Reachable (construct ii T evs sk t0) y) :
    y.pending.length ≤ 1 :=
  (inv_reachable _ y (inv_construct ii T evs sk t0) hr).1

theorem C4_witness :
    (construct false 1000 default_events none 0).pending.length ≤ 1 :=
  C4_at_most_one_pending false 1000 0 default_events none _
    Relation.ReflTransGen.refl

/-- C9: `reset()` in any state (paused or idle included) assigns
`idle = initially_idle`, sets both timestamps to now, clears the pause
cache, cancels any pending deferred transition, and schedules a fresh one
for the full `timeout` exactly when the resulting state is active.  (The
`reset` code path contains no dispatch, so no notification is emitted.) -/
theorem C9_reset_spec (s : IdleTimer) (t : Int) (h : Inv s) :
    (reset s t).idle = s.initially_idle ∧
    (reset s t).last_activity_at = t ∧
    (reset s t).last_toggled_at = t ∧
    (reset s t).remaining = none ∧
    (reset s t).pending =
      (if s.initially_idle then [] else [(s.next_handle, t + s.timeout)]) := by
  have hc := clear_pending
    { s with idle := s.initially_idle, last_activity_at := t,
             last_toggled_at := t, remaining := none } h.2.1
  cases hii : s.initially_idle with
  | true =>
      simp only [hii] at hc
      refine ⟨?_, ?_, ?_, ?_, ?_⟩ <;> simp [reset, is_idle, hii, hc.1]
  | false =>
      simp only [hii] at hc
      refine ⟨?_, ?_, ?_, ?_, ?_⟩ <;> simp [reset, is_idle, hii, hc.1]

theorem C9_witness :
    (reset s_paused_late 5000).idle = s_paused_late.initially_idle ∧
    (reset s_paused_late 5000).last_activity_at = 5000 ∧
    (reset s_paused_late 5000).last_toggled_at = 5000 ∧
    (reset s_paused_late 5000).remaining = none ∧
    (reset s_paused_late 5000).pending =
      (if s_paused_late.initially_idle then []
       else [(s_paused_late.next_handle, 5000 + s_paused_late.timeout)]) :=
  C9_reset_spec s_paused_late 5000 (by decide)

/-- C5: for a non-paused timer, a mousemove is rejected (state unchanged,
no effects, no rescheduling) exactly when its coordinates strictly equal
the cached ones, or both its coordinates are undefined, or less than 200 ms
elapsed since the last state transition; otherwise it qualifies. -/
theorem C5_mousemove_debounce (s : IdleTimer) (t : Int) (e : JEvent)
    (b : Bool) (hnp : s.remaining = none) (hmm : e.type = "mousemove") :
    handle_event s t e b = (s, []) ↔
      ((e.pageX = s.pageX ∧ e.pageY = s.pageY) ∨
       (e.pageX = JVal.undef ∧ e.pageY = JVal.undef) ∨
       t - s.last_toggled_at < 200) := by
  have hspur : spurious s t e = true ↔
      ((e.pageX = s.pageX ∧ e.pageY = s.pageY) ∨
       (e.pageX = JVal.undef ∧ e.pageY = JVal.undef) ∨
       t - s.last_toggled_at < 200) := by
    simp [spurious, is_paused, hnp, hmm, get_elapsed_time, or_assoc]
  constructor
  · intro hres
    by_contra hcond
    have hs : spurious s t e = false := by
      cases hbool : spurious s t e with
      | false => rfl
      | true => exact absurd (hspur.mp hbool) hcond
    have hnh := handle_event_next_handle s t e b hs
    rw [hres] at hnh
    simp at hnh
  · intro hcond
    simp [handle_event, hspur.mpr hcond]

theorem C5_witness :
    (handle_event s_active0 100 ev_move true = (s_active0, []) ↔
      ((ev_move.pageX = s_active0.pageX ∧ ev_move.pageY = s_active0.pageY) ∨
       (ev_move.pageX = JVal.undef ∧ ev_move.pageY = JVal.undef) ∨
       (100 : Int) - s_active0.last_toggled_at < 200)) :=
  C5_mousemove_debounce s_active0 100 ev_move true (by decide) rfl

/-- C2: pausing an active, unpaused timer at clock `tp` caches
`timeout - (tp - last_toggled_at)` (the remaining time measured from the
last state transition), and resuming at any later clock `tr` schedules the
deferred idle transition for exactly that cached duration after `tr` —
independent of any qualifying activity accepted since the last transition,
since only `last_toggled_at` enters the computation. -/
theorem C2_pause_resume_fidelity (s : IdleTimer) (tp tr : Int) (h : Inv s)
    (hidle : s.idle = false) (hnp : s.remaining = none)
    (he : tp - s.last_toggled_at < s.timeout) :
    (resume (pause s tp) tr).pending =
      [(s.next_handle, tr + (s.timeout - (tp - s.last_toggled_at)))] ∧
    (resume (pause s tp) tr).remaining = none := by
  have hc := clear_pending
    { s with remaining := some (s.timeout - get_elapsed_time s tp) } h.2.1
  have hpause : pause s tp =
      clear { s with remaining := some (s.timeout - get_elapsed_time s tp) } := by
    unfold pause
    rw [if_pos (by simp [is_paused, hnp])]
  rw [hpause, resume_start _ tr (s.timeout - get_elapsed_time s tp)
      (by simp) (by simp [hidle])]
  refine ⟨?_, rfl⟩
  simp only [get_elapsed_time] at hc
  simp [hc.1, get_elapsed_time]

theorem C2_witness :
    (resume (pause s_after_kd 950) 5000).pending =
      [(s_after_kd.next_handle,
        5000 + (s_after_kd.timeout - (950 - s_after_kd.last_toggled_at)))] ∧
    (resume (pause s_after_kd 950) 5000).remaining = none :=
  C2_pause_resume_fidelity s_after_kd 950 5000 (by decide) (by decide)
    (by decide) (by decide)

/-- C1: constructing with `initially_idle = false` and `timeout = T` at
clock `t0` leaves exactly one deferred transition pending, due at `t0 + T`;
if nothing intervenes, its firing runs `__toggle_idle(null)`: it dispatches
exactly one `idle-timer:idle` notification carrying a null originating
event, sets `idle` to true and `last_toggled_at` to the firing time, after
which `is_idle()` is true and no deferred transition remains pending (so no
second idle transition can fire). -/
theorem C1_single_idle_transition (T t0 : Int) :
    (construct false T default_events none t0).pending = [(1, t0 + T)] ∧
    is_idle (construct false T default_events none t0) = false ∧
    (fire_timeout (construct false T default_events none t0) 1 (t0 + T)).2 =
      [Effect.dispatch "idle-timer:idle" none] ∧
    is_idle (fire_timeout (construct false T default_events none t0) 1
      (t0 + T)).1 = true ∧
    (fire_timeout (construct false T default_events none t0) 1
      (t0 + T)).1.last_toggled_at = t0 + T ∧
    (fire_timeout (construct false T default_events none t0) 1
      (t0 + T)).1.pending = [] := by
  refine ⟨?_, ?_, ?_, ?_, ?_, ?_⟩ <;>
    simp [construct, reset, clear, start, is_idle, fire_timeout, toggle_idle]

/-- Timer constructed at t = 0 with localStorage sync key "k". -/
def s_sync : IdleTimer := construct false 1000 default_events (some "k") 0

/-- C8: with `storage_key = some k` and the timer not paused: a 'storage'
event whose key differs from `k` is ignored with no effect; on any accepted
signal the new `last_activity_at` (= now) is written to localStorage under
`k` exactly when the signal is not itself a 'storage' event; when
localStorage is absent no write happens, and localStorage availability
never affects the resulting timer state. -/
theorem C8_storage_channel (s : IdleTimer) (t : Int) (e : JEvent) (k : String)
    (hk : s.storage_key = some k) (hnp : s.remaining = none) :
    (e.type = "storage" → e.key ≠ some k → handle_event s t e true = (s, [])) ∧
    (spurious s t e = false →
      (Effect.storageWrite k t ∈ (handle_event s t e true).2 ↔
        e.type ≠ "storage")) ∧
    (∀ v : Int, Effect.storageWrite k v ∉ (handle_event s t e false).2) ∧
    (handle_event s t e true).1 = (handle_event s t e false).1 := by
  refine ⟨?_, ?_, ?_, ?_⟩
  · intro hst hkey
    have hs : spurious s t e = true := by
      simp [spurious, hst, hk, hkey]
    simp [handle_event, hs]
  · intro hs
    by_cases hst : e.type = "storage"
    · cases hi : is_idle (clear s) <;>
        simp [handle_event, hs, hi, toggle_idle, hk, hst, get_last_active_time]
    · cases hi : is_idle (clear s) <;>
        simp [handle_event, hs, hi, toggle_idle, hk, hst, get_last_active_time]
  · intro v
    by_cases hs : spurious s t e = true
    · simp [handle_event, hs]
    · cases hi : is_idle (clear s) <;>
        simp [handle_event, hs, hi, toggle_idle, hk]
  · by_cases hs : spurious s t e = true
    · simp [handle_event, hs]
    · cases hi : is_idle (clear s) <;>
        simp [handle_event, hs, hi, toggle_idle]

theorem C8_witness :
    (ev_keydown.type = "storage" → ev_keydown.key ≠ some "k" →
      handle_event s_sync 300 ev_keydown true = (s_sync, [])) ∧
    (spurious s_sync 300 ev_keydown = false →
      (Effect.storageWrite "k" 300 ∈ (handle_event s_sync 300 ev_keydown true).2 ↔
        ev_keydown.type ≠ "storage")) ∧
    (∀ v : Int,
      Effect.storageWrite "k" v ∉ (handle_event s_sync 300 ev_keydown false).2) ∧
    (handle_event s_sync 300 ev_keydown true).1 =
      (handle_event s_sync 300 ev_keydown false).1 :=
  C8_storage_channel s_sync 300 ev_keydown "k" rfl (by decide)

/-- C3 (against the code): after `destroy()`, the handler closure that the
constructor registered on every monitored event kind (and on 'storage' when
`storage_key` is set) is STILL registered: `__uninstall_handlers` builds a
fresh closure, and `removeEventListener` with a function that was never
added is a no-op in the host contract, so the listener set is unchanged and
subsequent signals still reach the dispatcher. -/
theorem C3_destroy_leaves_listeners_subscribed :
    ((uninstall_handlers (install_handlers dom0 default_events none).1
        default_events none).1.listeners =
      (install_handlers dom0 default_events none).1.listeners) ∧
    (∀ kind ∈ default_events,
      (kind, (install_handlers dom0 default_events none).2) ∈
        (uninstall_handlers (install_handlers dom0 default_events none).1
          default_events none).1.listeners) ∧
    (("storage", (install_handlers dom0 default_events (some "k")).2) ∈
      (uninstall_handlers (install_handlers dom0 default_events (some "k")).1
        default_events (some "k")).1.listeners) := by
  decide

@[simp] theorem addListener_probe_calls (d : Dom) (k : String) (f : Nat) :
    (addListener d k f).probe_calls = d.probe_calls := by
  unfold addListener; split <;> rfl

theorem install_fold_probe_calls (events : List String) (f : Nat) (d : Dom) :
    (events.foldl
      (fun d item =>
        let d := { d with probe_calls := d.probe_calls + 1 }
        addListener d item f) d).probe_calls = d.probe_calls + events.length := by
  induction events generalizing d with
  | nil => rfl
  | cons a l ih =>
      rw [List.foldl_cons, ih]
      simp only [addListener_probe_calls, List.length_cons]
      omega

/-- C7 counterexample: constructing a timer with the six default monitored
event kinds runs the passive-capability probe six times, not once — the
probe result is not memoized; `Utils.passive_supported()` is re-invoked for
every `addEventListener` call in `__install_handlers`. -/
theorem C7_probe_not_memoized :
    (install_handlers dom0 default_events none).1.probe_calls = 6 ∧
    (install_handlers dom0 default_events none).1.probe_calls ≠ 1 := by
  decide

/-- C7 amended: handler installation invokes the passive-capability probe
once per monitored event kind (each subscription re-runs it and uses that
call's fresh result); nothing is cached across calls or constructions. -/
theorem C7_probe_once_per_event_kind (d : Dom) (events : List String)
    (sk : Option String) :
    (install_handlers d events sk).1.probe_calls
      = d.probe_calls + events.length := by
  cases sk with
  | none => simp [install_handlers, install_fold_probe_calls]
  | some k => simp [install_handlers, install_fold_probe_calls]

end IdleTimerSpec
